import Mathlib

/-!
Shallow embedding of `src/photo_importer.py` (the Meili photo importer).

The script walks an inbox, classifies each file by its lowercased
extension, extracts an EXIF capture timestamp, computes a destination
directory and serial-numbered filename, moves the file (or only logs the
action under `--dryrun`), rejects unsupported files and videos, invokes
`darktable-cli` to derive a jpeg for raw `.cr2` files, and persists a
serial counter in a pickle file at the end of a non-dry run.

File contents and the real filesystem are abstracted: each inbox file
carries the outcome of reading its EXIF tag (`ExifRes`), and the state
records the set of existing directories, the moves performed, and the
subprocess invocations, so that the script's decisions and effects are
pure functions of these inputs.
-/

namespace Meili

/-! ### Path helpers (os.path semantics on posix) -/

/-- Index of the last occurrence of `c` in the character list, `-1` when
absent; this is `str.rfind` from Python, used by `os.path.splitext` and
`os.path.basename`. -/
def lastIdxAux (c : Char) : List Char → Nat → Int → Int
  | [], _, acc => acc
  | x :: xs, i, acc => lastIdxAux c xs (i + 1) (if x = c then Int.ofNat i else acc)

/-- `str.rfind` over a whole string: last index of `c`, `-1` if absent. -/
def lastIdx (cs : List Char) (c : Char) : Int := lastIdxAux c cs 0 (-1)

/-- `os.path.splitext` (posixpath): split at the last dot of the final
component, unless every character between the last separator and that dot
is itself a dot (leading dots of a hidden file are not an extension). -/
def splitext (p : String) : String × String :=
  let cs := p.data
  let sepIndex := lastIdx cs '/'
  let dotIndex := lastIdx cs '.'
  if sepIndex < dotIndex then
    let start := (sepIndex + 1).toNat
    let stop := dotIndex.toNat
    if (List.range' start (stop - start)).any (fun i => cs.getD i ' ' ≠ '.') then
      (⟨cs.take stop⟩, ⟨cs.drop stop⟩)
    else (p, "")
  else (p, "")

/-- `os.path.basename` (posixpath): everything after the last `/`. -/
def basename (p : String) : String :=
  ⟨p.data.drop (lastIdx p.data '/' + 1).toNat⟩

/-- `str.startswith`, written over the character lists so that it
evaluates by kernel reduction. -/
def strStartsWith (s pre : String) : Bool := pre.data.isPrefixOf s.data

/-- `str.endswith`, written over the character lists. -/
def strEndsWith (s suf : String) : Bool := suf.data.reverse.isPrefixOf s.data.reverse

/-- `str.lower` (line 132): ASCII lowercasing, written over the
character list. -/
def strLower (s : String) : String := ⟨s.data.map Char.toLower⟩

/-- `os.path.join` (posixpath) for two components. -/
def ospJoin (a b : String) : String :=
  if strStartsWith b "/" then b
  else if a = "" ∨ strEndsWith a "/" then a ++ b
  else a ++ "/" ++ b

/-! ### Timestamps: `datetime.strptime`/`strftime` on the fixed format -/

/-- A parsed capture timestamp (a `datetime` value). -/
structure DateT where
  year : Nat
  month : Nat
  day : Nat
  hour : Nat
  minute : Nat
  second : Nat
deriving Repr, DecidableEq

/-- Numeric value of an ASCII digit. -/
def dval (c : Char) : Nat := c.toNat - 48

/-- The character class `\s` of CPython's `re` on ASCII text: tab,
newline, vertical tab, form feed, carriage return, the four separator
control characters 28-31, and space. (On non-ASCII characters
CPython's `\s` and `\d` also match Unicode whitespace and decimal
digits, which the embedding does not model; theorems that reason from
a failing parse therefore scope tag strings to ASCII via `tagAscii`,
where the model is exact.) -/
def isSpaceRe (c : Char) : Bool :=
  c.toNat = 9 || c.toNat = 10 || c.toNat = 11 || c.toNat = 12 || c.toNat = 13
  || c.toNat = 28 || c.toNat = 29 || c.toNat = 30 || c.toNat = 31 || c.toNat = 32

/-- Priority-ordered choice: try the candidates of an alternation left
to right, as a backtracking regex engine does, and keep the first one
whose continuation succeeds. -/
def firstSome {α β : Type} : List α → (α → Option β) → Option β
  | [], _ => none
  | x :: xs, f =>
    match f x with
    | some b => some b
    | none => firstSome xs f

/-- `%Y`, compiled by CPython's `_strptime` to `\d\d\d\d`: exactly
four digits. -/
def altY : List Char → List (Nat × List Char)
  | a :: b :: c :: d :: r =>
    if a.isDigit && b.isDigit && c.isDigit && d.isDigit then
      [(((dval a * 10 + dval b) * 10 + dval c) * 10 + dval d, r)]
    else []
  | _ => []

/-- `%m`, compiled to `1[0-2]|0[1-9]|[1-9]`, candidates in regex
priority order. -/
def altMo (cs : List Char) : List (Nat × List Char) :=
  (match cs with
   | '1' :: b :: r => if '0' ≤ b ∧ b ≤ '2' then [(10 + dval b, r)] else []
   | _ => []) ++
  (match cs with
   | '0' :: b :: r => if '1' ≤ b ∧ b ≤ '9' then [(dval b, r)] else []
   | _ => []) ++
  (match cs with
   | a :: r => if '1' ≤ a ∧ a ≤ '9' then [(dval a, r)] else []
   | _ => [])

/-- `%d`, compiled to `3[01]|[12]\d|0[1-9]|[1-9]| [1-9]` — note the
final space-digit alternative. -/
def altD (cs : List Char) : List (Nat × List Char) :=
  (match cs with
   | '3' :: b :: r => if b = '0' ∨ b = '1' then [(30 + dval b, r)] else []
   | _ => []) ++
  (match cs with
   | a :: b :: r => if (a = '1' ∨ a = '2') ∧ b.isDigit then [(dval a * 10 + dval b, r)] else []
   | _ => []) ++
  (match cs with
   | '0' :: b :: r => if '1' ≤ b ∧ b ≤ '9' then [(dval b, r)] else []
   | _ => []) ++
  (match cs with
   | a :: r => if '1' ≤ a ∧ a ≤ '9' then [(dval a, r)] else []
   | _ => []) ++
  (match cs with
   | ' ' :: b :: r => if '1' ≤ b ∧ b ≤ '9' then [(dval b, r)] else []
   | _ => [])

/-- `%H`, compiled to `2[0-3]|[0-1]\d|\d`. -/
def altH (cs : List Char) : List (Nat × List Char) :=
  (match cs with
   | '2' :: b :: r => if '0' ≤ b ∧ b ≤ '3' then [(20 + dval b, r)] else []
   | _ => []) ++
  (match cs with
   | a :: b :: r => if (a = '0' ∨ a = '1') ∧ b.isDigit then [(dval a * 10 + dval b, r)] else []
   | _ => []) ++
  (match cs with
   | a :: r => if a.isDigit then [(dval a, r)] else []
   | _ => [])

/-- `%M`, compiled to `[0-5]\d|\d`. -/
def altMin (cs : List Char) : List (Nat × List Char) :=
  (match cs with
   | a :: b :: r => if ('0' ≤ a ∧ a ≤ '5') ∧ b.isDigit then [(dval a * 10 + dval b, r)] else []
   | _ => []) ++
  (match cs with
   | a :: r => if a.isDigit then [(dval a, r)] else []
   | _ => [])

/-- `%S`, compiled to `6[0-1]|[0-5]\d|\d` (60 and 61 are matched by
the regex; the later date-time construction rejects them). -/
def altS (cs : List Char) : List (Nat × List Char) :=
  (match cs with
   | '6' :: b :: r => if b = '0' ∨ b = '1' then [(60 + dval b, r)] else []
   | _ => []) ++ altMin cs

/-- The escaped literal `:` of the compiled pattern. -/
def altColon : List Char → List (Unit × List Char)
  | c :: r => if c = ':' then [((), r)] else []
  | [] => []

/-- A literal whitespace in the format is compiled to `\s+`: greedy,
with each shorter run as a backtracking candidate. -/
def altWs (cs : List Char) : List (Unit × List Char) :=
  let n := (cs.takeWhile isSpaceRe).length
  (List.range n).map (fun i => ((), cs.drop (n - i)))

/-- The compiled pattern of `'%Y:%m:%d %H:%M:%S'` matched at the start
of the string: the first complete match in backtracking priority
order, together with the unconsumed remainder. -/
def reMatchFields (cs : List Char) : Option (DateT × List Char) :=
  firstSome (altY cs) fun yr =>
  firstSome (altColon yr.2) fun c1 =>
  firstSome (altMo c1.2) fun mo =>
  firstSome (altColon mo.2) fun c2 =>
  firstSome (altD c2.2) fun dy =>
  firstSome (altWs dy.2) fun w1 =>
  firstSome (altH w1.2) fun hr =>
  firstSome (altColon hr.2) fun c3 =>
  firstSome (altMin c3.2) fun mi =>
  firstSome (altColon mi.2) fun c4 =>
  firstSome (altS c4.2) fun se =>
  some ({ year := yr.1, month := mo.1, day := dy.1,
          hour := hr.1, minute := mi.1, second := se.1 }, se.2)

/-- Gregorian leap year (as `calendar.isleap`). -/
def isLeap (y : Nat) : Bool := (y % 4 = 0 && ¬ y % 100 = 0) || y % 400 = 0

/-- Days in a month, validating the day field of a parsed datetime. -/
def daysInMonth (y m : Nat) : Nat :=
  if m = 2 then (if isLeap y then 29 else 28)
  else if m ∈ [4, 6, 9, 11] then 30 else 31

/-- `datetime.strptime(s, '%Y:%m:%d %H:%M:%S')` from line 148.
CPython's `_strptime` compiles the format to
`(?P<Y>\d\d\d\d):(?P<m>1[0-2]|0[1-9]|[1-9]):(?P<d>3[01]|[12]\d|0[1-9]|[1-9]| [1-9])\s+(?P<H>2[0-3]|[0-1]\d|\d):(?P<M>[0-5]\d|\d):(?P<S>6[0-1]|[0-5]\d|\d)`,
matches it at the start of the string, raises ValueError when a suffix
remains unconverted, and then builds the date and time values, which
raises ValueError for year 0, a day beyond the month's length, or a
second above 59. `none` models every such ValueError, which line 147's
`try` turns into the nodate fallback. -/
def strptime (s : String) : Option DateT :=
  match reMatchFields s.data with
  | none => none
  | some (d, rest) =>
    if rest = [] ∧ 1 ≤ d.year ∧ d.day ≤ daysInMonth d.year d.month ∧ d.second ≤ 59 then
      some d
    else none

/-- Two-digit zero padding, as strftime applies to `%m %d %H %M %S`. -/
def pad2 (n : Nat) : String := if n < 10 then "0" ++ toString n else toString n

/-- `datetime.strftime(d, '%Y')` (line 151, 190). -/
def fmtY (d : DateT) : String := toString d.year

/-- `datetime.strftime(d, '%m')` (line 152). -/
def fmtM (d : DateT) : String := pad2 d.month

/-- `d.strftime("%Y%m%d_%H%M%S")` (lines 159, 161). -/
def fmtCompact (d : DateT) : String :=
  toString d.year ++ pad2 d.month ++ pad2 d.day ++ "_" ++
    pad2 d.hour ++ pad2 d.minute ++ pad2 d.second

/-! ### The importer's data -/

/-- Outcome of reading the EXIF tag of a file: opening/reading raises,
the `'EXIF DateTimeOriginal'` key is absent (KeyError), or the tag is
present with the given string value. This abstracts the file contents
that `get_date_taken` (lines 93-97) reads. -/
inductive ExifRes where
  | ioError
  | noTag
  | tag (s : String)
deriving Repr, DecidableEq

/-- The tag string, when present, is pure ASCII. CPython's `\d` and
`\s` also match some non-ASCII characters that the embedding's
`strptime` does not model, so theorems that reason from a failing
parse scope the tag to ASCII, where the model is exact (a successful
parse of the model already forces an all-ASCII tag, so no scoping is
needed in that direction). -/
def tagAscii : ExifRes → Bool
  | ExifRes.tag s => s.data.all (fun c => c.toNat < 128)
  | _ => true

/-- An inbox file: its path as produced by the `os.walk` loop, together
with the EXIF outcome reading it would produce. -/
structure InFile where
  path : String
  exif : ExifRes
deriving Repr, DecidableEq

/-- The five configured paths of `importer.ini` (lines 87-91), as the
strings of the `Path` values; `p_inbox` is not needed because the walk's
file list is an input. -/
structure Config where
  pre_process : String
  raw_path : String
  reject_path : String
  video_path : String
deriving Repr, DecidableEq

/-- Line 61. -/
def valid_extensions : List String := [".tif", ".cr2", ".jpg", ".jpeg", ".png"]

/-- Line 62. -/
def video_extensions : List String := [".mp4", ".mkv"]

/-- The classification a file's extension receives in `process`
(lines 131-145): lowercased, then tested against the two extension
lists, with `.cr2` routed to the raw path and the other photo
extensions to the pre-process path. -/
inductive FileClass where
  | RawPhoto
  | ProcessedPhoto
  | Video
  | Unsupported
deriving Repr, DecidableEq

/-- The extension dispatch of `process` (lines 131-145) as a function
of the raw extension. -/
def classify (ext : String) : FileClass :=
  let e := strLower ext
  if e ∉ valid_extensions then
    if e ∈ video_extensions then FileClass.Video else FileClass.Unsupported
  else if e = ".cr2" then FileClass.RawPhoto else FileClass.ProcessedPhoto

/-- The mutable state of a run: the directories that exist, the moves
performed (`shutil.move` source/destination pairs), the subprocess
invocations (`subprocess.run` argument lists), and the two global
counters `reject_count` and `serial`. -/
structure St where
  dirs : List String
  moves : List (String × String)
  procs : List (List String)
  reject_count : Nat
  serial : Nat
deriving Repr, DecidableEq

/-- `get_date_taken` (lines 93-97): returns the string of the
`'EXIF DateTimeOriginal'` tag, raising (modelled as `Except.error`) on
an I/O error or a missing tag. -/
def get_date_taken (e : ExifRes) : Except Unit String :=
  match e with
  | ExifRes.ioError => Except.error ()
  | ExifRes.noTag => Except.error ()
  | ExifRes.tag s => Except.ok s

/-- The `date_taken` value that the `try` block of lines 147-156
computes for a file: `none` when `get_date_taken` raises or
`datetime.strptime` rejects the tag string. -/
def date_taken_of (f : InFile) : Option DateT :=
  match get_date_taken f.exif with
  | Except.error _ => none
  | Except.ok s => strptime s

/-- `reject` (lines 99-109): bump `reject_count`, create the reject
directory if absent (this happens regardless of dry-run), and move the
file there preserving its basename unless dry-run. -/
def reject (cfg : Config) (dryrun : Bool) (st : St) (file : String) : St :=
  let stA := { st with reject_count := st.reject_count + 1 }
  let stB :=
    if cfg.reject_path ∈ stA.dirs then stA
    else { stA with dirs := stA.dirs ++ [cfg.reject_path] }
  if dryrun then stB
  else { stB with moves := stB.moves ++ [(file, cfg.reject_path ++ "/" ++ basename file)] }

/-- `reject_video` (lines 111-121): same as `reject`, targeting the
video path; the directory creation is again not guarded by dry-run. -/
def reject_video (cfg : Config) (dryrun : Bool) (st : St) (video : String) : St :=
  let stA := { st with reject_count := st.reject_count + 1 }
  let stB :=
    if cfg.video_path ∈ stA.dirs then stA
    else { stA with dirs := stA.dirs ++ [cfg.video_path] }
  if dryrun then stB
  else { stB with moves := stB.moves ++ [(video, cfg.video_path ++ "/" ++ basename video)] }

/-- One iteration of the `for pic in allpics` loop of `process`
(lines 129-190). The returned Bool is `true` when the iteration raises
an uncaught exception: the only such point is the `.cr2`, non-dry-run
branch with `date_taken = None`, where line 190 evaluates
`datetime.strftime(date_taken, '%Y')` on `None` (a TypeError) while
building the `darktable-cli` arguments. -/
def stepFile (cfg : Config) (dryrun : Bool) (st0 : St) (f : InFile) : St × Bool :=
  let st1 : St := { st0 with serial := st0.serial + 1 }
  let extension := strLower (splitext f.path).2
  if extension ∉ valid_extensions then
    if extension ∈ video_extensions then
      (reject_video cfg dryrun st1 f.path, false)
    else
      (reject cfg dryrun st1 f.path, false)
  else
    let storage_path := if extension = ".cr2" then cfg.raw_path else cfg.pre_process
    let date_taken := date_taken_of f
    let new_filepath :=
      match date_taken with
      | some d => ospJoin (ospJoin storage_path (fmtY d)) (fmtM d)
      | none => ospJoin storage_path "nodate"
    let new_name :=
      match date_taken with
      | some d => fmtCompact d ++ "_" ++ toString st1.serial ++ extension
      | none => toString st1.serial ++ extension
    let new_jname :=
      match date_taken with
      | some d => fmtCompact d ++ "_" ++ toString st1.serial ++ ".jpg"
      | none => toString st1.serial ++ ".jpg"
    let st2 :=
      if new_filepath ∈ st1.dirs then st1
      else if dryrun then st1
      else { st1 with dirs := st1.dirs ++ [new_filepath] }
    let st3 :=
      if dryrun then st2
      else { st2 with moves := st2.moves ++ [(f.path, ospJoin new_filepath new_name)] }
    if extension = ".cr2" then
      if dryrun then (st3, false)
      else
        let st4 :=
          if cfg.raw_path ∈ st3.dirs then st3
          else { st3 with dirs := st3.dirs ++ [cfg.raw_path] }
        match date_taken with
        | none => (st4, true)
        | some d =>
          ({ st4 with procs := st4.procs ++
              [["darktable-cli", ospJoin new_filepath new_name,
                ospJoin (ospJoin cfg.pre_process (fmtY d)) new_jname]] }, false)
    else (st3, false)

/-- The `for pic in allpics` loop over the whole file list: an uncaught
exception in one iteration propagates, so later files are not
processed and the state at the raise is the final in-memory state. -/
def runFiles (cfg : Config) (dryrun : Bool) : List InFile → St → St × Bool
  | [], st => (st, false)
  | f :: fs, st =>
    match stepFile cfg dryrun st f with
    | (st', true) => (st', true)
    | (st', false) => runFiles cfg dryrun fs st'

/-- The command-line flags that matter to the core (lines 40-46). -/
structure Args where
  dryrun : Bool
  get_serial : Bool
deriving Repr, DecidableEq

/-- Result of a whole invocation: final in-memory state, the pickled
serial after the run (`none` when the pickle file never existed),
what `--get-serial` printed, and whether the run died on an uncaught
exception. -/
structure MainOut where
  fs : St
  persisted : Option Nat
  reported : Option Nat
  crashed : Bool
deriving Repr, DecidableEq

/-- The `__main__` block (lines 193-203) plus the serial load of
lines 71-79: the serial starts from the pickle (0 when the file is
absent or unreadable); `--get-serial` reports it and exits before
`process`; otherwise `process` runs over the walked files, and the
serial is pickled only when the run did not raise and `--dryrun` is
off. `dirs0` is the set of directories existing at start; `moves` and
`procs` start empty as no action has happened yet. -/
def main_run (cfg : Config) (a : Args) (files : List InFile)
    (dirs0 : List String) (persisted0 : Option Nat) : MainOut :=
  let serial0 := persisted0.getD 0
  let st0 : St :=
    { dirs := dirs0, moves := [], procs := [], reject_count := 0, serial := serial0 }
  if a.get_serial then
    { fs := st0, persisted := persisted0, reported := some serial0, crashed := false }
  else
    let r := runFiles cfg a.dryrun files st0
    let persisted1 :=
      if r.2 then persisted0
      else if a.dryrun then persisted0
      else some r.1.serial
    { fs := r.1, persisted := persisted1, reported := none, crashed := r.2 }

/-! ### Concrete data used by witnesses and counterexamples -/

/-- A demo configuration with the five paths of `importer.ini`. -/
def cfg0 : Config :=
  { pre_process := "/pre", raw_path := "/raw", reject_path := "/reject", video_path := "/video" }

/-- A start state with serial 6 and an empty filesystem view. -/
def st6 : St := { dirs := [], moves := [], procs := [], reject_count := 0, serial := 6 }

/-- A start state with serial 8 and an empty filesystem view. -/
def st8 : St := { dirs := [], moves := [], procs := [], reject_count := 0, serial := 8 }

/-- A processed photo with a well-formed EXIF capture time. -/
def fileA : InFile := { path := "/inbox/a.jpg", exif := ExifRes.tag "2023:04:05 11:22:33" }

/-- A raw photo whose EXIF capture-time tag is absent. -/
def fileXcr2 : InFile := { path := "/inbox/x.cr2", exif := ExifRes.noTag }

/-- A processed photo with a well-formed EXIF capture time. -/
def fileBjpg : InFile := { path := "/inbox/b.jpg", exif := ExifRes.tag "2024:01:02 03:04:05" }

/-- A file with an unsupported extension. -/
def fileXyz : InFile := { path := "/inbox/a.xyz", exif := ExifRes.noTag }

/-- A file whose name has no extension component at all. -/
def filePlain : InFile := { path := "/inbox/photo", exif := ExifRes.noTag }

/-- An uppercase-extension photo. -/
def fileUpper : InFile := { path := "/inbox/A.JPG", exif := ExifRes.noTag }

/-- A two-file inbox: one unsupported file and one video. -/
def demoFiles : List InFile :=
  [fileXyz, { path := "/inbox/v.mp4", exif := ExifRes.noTag }]

/-! ### Helper lemmas -/

/-- String concatenation is associative. -/
theorem str_append_assoc (a b c : String) : a ++ b ++ c = a ++ (b ++ c) := by
  cases a with
  | mk da =>
    cases b with
    | mk db =>
      cases c with
      | mk dc => exact congrArg String.mk (List.append_assoc da db dc)

/-- Joining a path whose final component ends in `e` yields a string
ending in `e`. -/
theorem ospJoin_ext (a p e : String) : ∃ stem, ospJoin a (p ++ e) = stem ++ e := by
  unfold ospJoin
  split_ifs
  · exact ⟨p, rfl⟩
  · exact ⟨a ++ p, (str_append_assoc a p e).symm⟩
  · exact ⟨a ++ "/" ++ p, (str_append_assoc (a ++ "/") p e).symm⟩

/-- Each loop iteration bumps the in-memory serial by exactly one,
whatever happens to the file. -/
theorem stepFile_serial (cfg : Config) (dryrun : Bool) (st : St) (f : InFile) :
    (stepFile cfg dryrun st f).1.serial = st.serial + 1 := by
  cases hdt : date_taken_of f <;>
    simp only [stepFile, reject, reject_video, hdt] <;>
    split_ifs <;> rfl

/-- Over a whole file list, the serial advances by the number of files
encountered when no iteration raised. -/
theorem runFiles_serial_aux (cfg : Config) (dryrun : Bool) (files : List InFile) :
    ∀ st : St, (runFiles cfg dryrun files st).2 = false →
      (runFiles cfg dryrun files st).1.serial = st.serial + files.length := by
  induction files with
  | nil => intro st _; simp [runFiles]
  | cons f fs ih =>
    intro st h
    cases hstep : stepFile cfg dryrun st f with
    | mk st' c =>
      have hser : st'.serial = st.serial + 1 := by
        have h2 := stepFile_serial cfg dryrun st f
        rw [hstep] at h2; exact h2
      cases c with
      | true =>
        simp only [runFiles, hstep] at h
        exact Bool.noConfusion h
      | false =>
        simp only [runFiles, hstep] at h ⊢
        rw [ih st' h, hser, List.length_cons]
        omega

/-- A dry-run iteration never raises, performs no move and no
subprocess call, and can only add the reject or video directory. -/
theorem stepFile_dryrun_frame (cfg : Config) (st : St) (f : InFile) :
    (stepFile cfg true st f).2 = false
  ∧ (stepFile cfg true st f).1.moves = st.moves
  ∧ (stepFile cfg true st f).1.procs = st.procs
  ∧ ∀ x ∈ (stepFile cfg true st f).1.dirs,
      x ∈ st.dirs ∨ x = cfg.reject_path ∨ x = cfg.video_path := by
  cases hdt : date_taken_of f <;>
    simp only [stepFile, reject, reject_video, hdt] <;>
    split_ifs <;>
    simp_all [List.mem_append] <;>
    tauto

/-- The dry-run frame property extended over a whole file list. -/
theorem runFiles_dryrun_frame (cfg : Config) (files : List InFile) :
    ∀ st : St,
      (runFiles cfg true files st).2 = false
    ∧ (runFiles cfg true files st).1.moves = st.moves
    ∧ (runFiles cfg true files st).1.procs = st.procs
    ∧ ∀ x ∈ (runFiles cfg true files st).1.dirs,
        x ∈ st.dirs ∨ x = cfg.reject_path ∨ x = cfg.video_path := by
  induction files with
  | nil => exact fun st => ⟨rfl, rfl, rfl, fun x hx => Or.inl hx⟩
  | cons f fs ih =>
    intro st
    have hf := stepFile_dryrun_frame cfg st f
    cases hstep : stepFile cfg true st f with
    | mk st' c =>
      rw [hstep] at hf
      cases c with
      | true => simp at hf
      | false =>
        simp only [runFiles, hstep]
        obtain ⟨-, hm, hp, hd⟩ := hf
        obtain ⟨h1, h2, h3, h4⟩ := ih st'
        refine ⟨h1, h2.trans hm, h3.trans hp, ?_⟩
        intro x hx
        rcases h4 x hx with hx' | hx' | hx'
        · rcases hd x hx' with h | h | h
          · exact Or.inl h
          · exact Or.inr (Or.inl h)
          · exact Or.inr (Or.inr h)
        · exact Or.inr (Or.inl hx')
        · exact Or.inr (Or.inr hx')

/-- The move a non-dry-run iteration performs on a file with a valid
photo extension: the destination directory comes from the storage root,
the timestamp or the `nodate` fallback, and the filename from the
timestamp, the bumped serial and the lowercased extension. -/
theorem stepFile_moves_plan (cfg : Config) (st : St) (f : InFile)
    (hvalid : strLower (splitext f.path).2 ∈ valid_extensions) :
    (stepFile cfg false st f).1.moves = st.moves ++
      [(f.path,
        ospJoin
          (match date_taken_of f with
           | some d => ospJoin (ospJoin
               (if strLower (splitext f.path).2 = ".cr2" then cfg.raw_path else cfg.pre_process)
               (fmtY d)) (fmtM d)
           | none => ospJoin
               (if strLower (splitext f.path).2 = ".cr2" then cfg.raw_path else cfg.pre_process)
               "nodate")
          (match date_taken_of f with
           | some d => fmtCompact d ++ "_" ++ toString (st.serial + 1) ++ strLower (splitext f.path).2
           | none => toString (st.serial + 1) ++ strLower (splitext f.path).2))] := by
  cases hdt : date_taken_of f <;>
    simp only [stepFile, hdt] <;>
    rw [if_neg (not_not_intro hvalid)] <;>
    split_ifs <;> first | rfl | contradiction

/-! ### The claims -/

/-- C1, counterexample: the claim that a dry run performs zero
filesystem mutations is false on the code. Starting with no existing
directories and one unsupported file, the dry run ends with the reject
directory created: `reject` runs `os.makedirs` before it tests
`args.dryrun`, so the mutation happens even under `--dryrun`. -/
theorem C1_dryrun_counterexample :
    (main_run cfg0 { dryrun := true, get_serial := false }
        [fileXyz] [] (some 5)).fs.dirs = ["/reject"] := by
  decide

/-- C1 (amended): running with dry-run enabled moves no file, invokes
no subprocess, never raises, and leaves the persisted serial counter
unchanged; however, it is not free of filesystem mutations: rejecting
an unsupported file or a video may create the reject or video
directory, and any directory the dry run ends with is either one it
started with or one of those two. -/
theorem C1_dryrun_amended (cfg : Config) (files : List InFile)
    (dirs0 : List String) (p0 : Option Nat) :
    (main_run cfg { dryrun := true, get_serial := false } files dirs0 p0).fs.moves = []
  ∧ (main_run cfg { dryrun := true, get_serial := false } files dirs0 p0).fs.procs = []
  ∧ (main_run cfg { dryrun := true, get_serial := false } files dirs0 p0).persisted = p0
  ∧ (main_run cfg { dryrun := true, get_serial := false } files dirs0 p0).crashed = false
  ∧ ∀ x ∈ (main_run cfg { dryrun := true, get_serial := false } files dirs0 p0).fs.dirs,
      x ∈ dirs0 ∨ x = cfg.reject_path ∨ x = cfg.video_path := by
  obtain ⟨h1, h2, h3, h4⟩ := runFiles_dryrun_frame cfg files
    { dirs := dirs0, moves := [], procs := [], reject_count := 0, serial := p0.getD 0 }
  simp only [main_run]
  refine ⟨by simpa using h2, by simpa using h3, ?_, by simpa using h1, by simpa using h4⟩
  simp [h1]

/-- C2: the code contradicts the claim that a dateless `.cr2` file's
secondary jpeg is destined for `<pre-process-root>/nodate` with the run
continuing: in a non-dry run the iteration evaluates
`datetime.strftime(date_taken, '%Y')` with `date_taken = None` while
building the `darktable-cli` arguments (line 190), raising a TypeError
that aborts the run; no conversion subprocess is ever invoked. -/
theorem C2_cr2_nodate_defect :
    (stepFile cfg0 false st8 fileXcr2).2 = true
  ∧ (stepFile cfg0 false st8 fileXcr2).1.procs = [] := by
  decide

/-- C3: the in-memory serial counter is bumped exactly once per file
encountered, so a run that processes its whole inbox (no iteration
raised) ends with the counter equal to its initial value plus the
number of files, whatever each file's classification was. -/
theorem C3_serial_monotonic (cfg : Config) (dryrun : Bool) (files : List InFile) (st : St)
    (h : (runFiles cfg dryrun files st).2 = false) :
    (runFiles cfg dryrun files st).1.serial = st.serial + files.length :=
  runFiles_serial_aux cfg dryrun files st h

/-- C3, witness: a run over one unsupported file and one video advances
the serial by two. -/
theorem C3_serial_monotonic_witness :
    (runFiles cfg0 false demoFiles st6).1.serial = st6.serial + demoFiles.length :=
  C3_serial_monotonic cfg0 false demoFiles st6 (by decide)

/-- C4: for every extension, compared case-insensitively: `.cr2` is the
raw photo type; the other members of the photo extension list are
processed photos; the members of the video extension list are videos;
everything else is unsupported. -/
theorem C4_classify_characterization (ext : String) :
    (classify ext = FileClass.RawPhoto ↔ strLower ext = ".cr2")
  ∧ (classify ext = FileClass.ProcessedPhoto ↔
      strLower ext ∈ ([".tif", ".jpg", ".jpeg", ".png"] : List String))
  ∧ (classify ext = FileClass.Video ↔ strLower ext ∈ video_extensions)
  ∧ (classify ext = FileClass.Unsupported ↔
      (strLower ext ∉ valid_extensions ∧ strLower ext ∉ video_extensions)) := by
  simp only [classify]
  generalize strLower ext = e
  by_cases h1 : e ∈ valid_extensions
  · fin_cases h1 <;> decide
  · by_cases h2 : e ∈ video_extensions
    · fin_cases h2 <;> decide
    · have hcr : ¬ e = ".cr2" := fun hh => h1 (by rw [hh]; decide)
      have hph : e ∉ ([".tif", ".jpg", ".jpeg", ".png"] : List String) := by
        intro hh
        apply h1
        fin_cases hh <;> decide
      rw [if_pos h1, if_neg h2]
      simp [hcr, hph, h1, h2]

/-- C5: for a photo file with an extracted capture timestamp `d`, the
non-dry-run iteration moves it to directory
`<root>/<strftime %Y of d>/<strftime %m of d>` (the root chosen by the
classification) under the name
`<strftime %Y%m%d_%H%M%S of d>_<bumped serial><lowercased ext>`. -/
theorem C5_plan_dated (cfg : Config) (st : St) (f : InFile) (s : String) (d : DateT)
    (hvalid : strLower (splitext f.path).2 ∈ valid_extensions)
    (hexif : f.exif = ExifRes.tag s)
    (hparse : strptime s = some d) :
    (stepFile cfg false st f).1.moves = st.moves ++
      [(f.path,
        ospJoin (ospJoin (ospJoin
            (if strLower (splitext f.path).2 = ".cr2" then cfg.raw_path else cfg.pre_process)
            (fmtY d)) (fmtM d))
          (fmtCompact d ++ "_" ++ toString (st.serial + 1) ++ strLower (splitext f.path).2))] := by
  have hdt : date_taken_of f = some d := by
    simp [date_taken_of, get_date_taken, hexif, hparse]
  rw [stepFile_moves_plan cfg st f hvalid]
  simp only [hdt]

/-- C5, witness: timestamp `2023:04:05 11:22:33`, initial serial 6 (so
the file is numbered 7) and extension `.jpg` yield directory
`/pre/2023/04` and filename `20230405_112233_7.jpg`. -/
theorem C5_plan_dated_witness :
    (stepFile cfg0 false st6 fileA).1.moves
      = [("/inbox/a.jpg", "/pre/2023/04/20230405_112233_7.jpg")] := by
  rw [C5_plan_dated cfg0 st6 fileA "2023:04:05 11:22:33"
      { year := 2023, month := 4, day := 5, hour := 11, minute := 22, second := 33 }
      (by decide) rfl (by decide)]
  decide

/-- C6: for a photo file with no extractable capture timestamp — an
I/O error, a missing tag, or a tag string the parse rejects, the tag
scoped to ASCII where the parse model is exact — the non-dry-run
iteration moves it to `<root>/nodate` under the name
`<bumped serial><lowercased ext>`. -/
theorem C6_plan_nodate (cfg : Config) (st : St) (f : InFile)
    (hvalid : strLower (splitext f.path).2 ∈ valid_extensions)
    (hascii : tagAscii f.exif = true)
    (hnone : date_taken_of f = none) :
    (stepFile cfg false st f).1.moves = st.moves ++
      [(f.path,
        ospJoin (ospJoin
            (if strLower (splitext f.path).2 = ".cr2" then cfg.raw_path else cfg.pre_process)
            "nodate")
          (toString (st.serial + 1) ++ strLower (splitext f.path).2))] := by
  rw [stepFile_moves_plan cfg st f hvalid]
  simp only [hnone]

/-- C6, witness: no timestamp, initial serial 8 (so the file is
numbered 9) and extension `.cr2` yield directory `/raw/nodate` and
filename `9.cr2`. -/
theorem C6_plan_nodate_witness :
    (stepFile cfg0 false st8 fileXcr2).1.moves
      = [("/inbox/x.cr2", "/raw/nodate/9.cr2")] := by
  rw [C6_plan_nodate cfg0 st8 fileXcr2 (by decide) (by decide) (by decide)]
  decide

/-- C7: the code contradicts the claim that a metadata-extraction
failure never aborts the run: the extraction failure itself is caught
and the file does fall back to `nodate`, but for a `.cr2` file in a
non-dry run the later conversion step evaluates `strftime` on the
absent timestamp and raises, aborting the run, so the next file (here
`/inbox/b.jpg`) is never processed. -/
theorem C7_metadata_failure_aborts :
    (runFiles cfg0 false [fileXcr2, fileBjpg] st8).2 = true
  ∧ (runFiles cfg0 false [fileXcr2, fileBjpg] st8).1.moves
      = [("/inbox/x.cr2", "/raw/nodate/9.cr2")] := by
  decide

/-- C8: with `--get-serial` the program reports the persisted serial
(0 when no pickle exists), performs no file processing, touches no
directory, and leaves the persisted counter unchanged. -/
theorem C8_get_serial_short_circuit (cfg : Config) (d : Bool) (files : List InFile)
    (dirs0 : List String) (p0 : Option Nat) :
    (main_run cfg { dryrun := d, get_serial := true } files dirs0 p0).reported = some (p0.getD 0)
  ∧ (main_run cfg { dryrun := d, get_serial := true } files dirs0 p0).persisted = p0
  ∧ (main_run cfg { dryrun := d, get_serial := true } files dirs0 p0).fs.moves = []
  ∧ (main_run cfg { dryrun := d, get_serial := true } files dirs0 p0).fs.procs = []
  ∧ (main_run cfg { dryrun := d, get_serial := true } files dirs0 p0).fs.dirs = dirs0
  ∧ (main_run cfg { dryrun := d, get_serial := true } files dirs0 p0).fs.serial = p0.getD 0
  ∧ (main_run cfg { dryrun := d, get_serial := true } files dirs0 p0).crashed = false := by
  simp [main_run]

/-- C9: an imported photo's new filename ends in the lowercased form of
its original extension, whether or not a timestamp was found. -/
theorem C9_lowercased_extension (cfg : Config) (st : St) (f : InFile)
    (hvalid : strLower (splitext f.path).2 ∈ valid_extensions) :
    ∃ stem, (stepFile cfg false st f).1.moves
      = st.moves ++ [(f.path, stem ++ strLower (splitext f.path).2)] := by
  rw [stepFile_moves_plan cfg st f hvalid]
  cases hdt : date_taken_of f with
  | none =>
    obtain ⟨stem, hstem⟩ := ospJoin_ext
      (ospJoin (if strLower (splitext f.path).2 = ".cr2" then cfg.raw_path else cfg.pre_process)
        "nodate")
      (toString (st.serial + 1)) (strLower (splitext f.path).2)
    refine ⟨stem, ?_⟩
    simp only [hdt]
    rw [hstem]
  | some d =>
    obtain ⟨stem, hstem⟩ := ospJoin_ext
      (ospJoin (ospJoin
          (if strLower (splitext f.path).2 = ".cr2" then cfg.raw_path else cfg.pre_process)
          (fmtY d)) (fmtM d))
      (fmtCompact d ++ "_" ++ toString (st.serial + 1)) (strLower (splitext f.path).2)
    refine ⟨stem, ?_⟩
    simp only [hdt]
    rw [hstem]

/-- C9, witness: a file named `A.JPG` is renamed with suffix `.jpg`. -/
theorem C9_lowercased_extension_witness :
    ∃ stem, (stepFile cfg0 false st6 fileUpper).1.moves
      = st6.moves ++ [(fileUpper.path, stem ++ strLower (splitext fileUpper.path).2)] :=
  C9_lowercased_extension cfg0 st6 fileUpper (by decide)

/-- C10: a file whose name has an empty extension component is
classified unsupported and, in a non-dry run, moved to the reject
directory with the reject counter bumped, and the iteration does not
raise. -/
theorem C10_no_extension_rejected (cfg : Config) (st : St) (f : InFile)
    (h : (splitext f.path).2 = "") :
    classify (splitext f.path).2 = FileClass.Unsupported
  ∧ (stepFile cfg false st f).1.reject_count = st.reject_count + 1
  ∧ (stepFile cfg false st f).1.moves
      = st.moves ++ [(f.path, cfg.reject_path ++ "/" ++ basename f.path)]
  ∧ (stepFile cfg false st f).2 = false := by
  have h0 : strLower (splitext f.path).2 = "" := by rw [h]; rfl
  have key : stepFile cfg false st f
      = (reject cfg false { st with serial := st.serial + 1 } f.path, false) := by
    simp only [stepFile, h0]
    rw [if_pos (by decide), if_neg (by decide)]
  refine ⟨by rw [h]; decide, ?_, ?_, ?_⟩ <;>
    rw [key] <;> simp only [reject] <;> split_ifs <;> first | rfl | contradiction

/-- C10, witness: `/inbox/photo` has no extension and is rejected. -/
theorem C10_no_extension_rejected_witness :
    classify (splitext filePlain.path).2 = FileClass.Unsupported
  ∧ (stepFile cfg0 false st8 filePlain).1.reject_count = st8.reject_count + 1
  ∧ (stepFile cfg0 false st8 filePlain).1.moves
      = st8.moves ++ [(filePlain.path, cfg0.reject_path ++ "/" ++ basename filePlain.path)]
  ∧ (stepFile cfg0 false st8 filePlain).2 = false :=
  C10_no_extension_rejected cfg0 st8 filePlain (by decide)

end Meili
